import Mathlib

/-!
Shallow embedding of src/torrent_downloader.py (class CodespaceTorrentDownloader)
and verification of the frozen claims about it.

External effects (HTTP requests to the aria2 RPC endpoint, the wall clock, the
filesystem, ffmpeg invocations) are modelled as explicit environment
parameters; every embedded operation is a total Lean function of the
environment, mirroring the control flow of the Python source. Loops whose exit
depends only on the environment (the wall clock) take an explicit fuel bound;
the value none marks fuel exhaustion of the model, which the theorems exclude
by giving enough fuel for the wall clock to reach the timeout.
-/

namespace YATD

/-- aria2_call, src lines 143 to 166: for attempt in range(retries), try the
request and return its parsed JSON body on success; on a raised exception
(transport failure, raise_for_status on a non-2xx reply, the 15 second
per-call timeout, a body that fails to parse) return None if this was the
last attempt, else sleep one second and retry. The environment att gives the
outcome of attempt number i (none models a raised exception). The second
component of the result counts the sleep(1) backoffs executed, one between
consecutive attempts. -/
def aria2_call_from {R : Type} (att : Nat → Option R) : Nat → Nat → Option R × Nat
  | 0, _ => (none, 0)
  | fuel + 1, i =>
    match att i with
    | some r => (some r, 0)
    | none =>
      if fuel = 0 then (none, 0)
      else
        ((aria2_call_from att fuel (i + 1)).1, (aria2_call_from att fuel (i + 1)).2 + 1)

/-- aria2_call entry point: the loop of src lines 155 to 164 starting at
attempt 0; the source default retry budget is retries = 3. -/
def aria2_call {R : Type} (att : Nat → Option R) (retries : Nat) : Option R × Nat :=
  aria2_call_from att retries 0

/-- One file entry of an aria2 status report: the path field when present
(f.get("path") at src line 279). -/
structure FileEntry where
  path : Option String
deriving DecidableEq

/-- Fields of the aria2.tellStatus reply read by monitor_download,
src lines 262 to 276; the int(...get(..., 0)) defaults are part of the
environment value. -/
structure PollStatus where
  status : String
  completedLength : Nat
  totalLength : Nat
  downloadSpeed : Nat
  files : List FileEntry
deriving DecidableEq

/-- Environment of the monitoring loop: the wall clock value observed during
iteration k, the tellStatus outcome of iteration k (none models a failed RPC
call or a reply without a result field, src line 257), and the per-iteration
snapshot of os.path.exists, src line 280. -/
structure MonitorEnv where
  clock : Nat → Nat
  poll : Nat → Option PollStatus
  diskEx : Nat → String → Bool

/-- One surfaced progress report, src line 271: the completed and total byte
counts, the instantaneous rate, and the printed ETA. -/
structure Progress where
  completed : Nat
  total : Nat
  speed : Nat
  eta : Int
deriving DecidableEq

/-- Terminal outcome of one monitoring session. -/
inductive MonitorOutcome
  | completed
  | failed
  | timedOut
deriving DecidableEq

/-- ETA computed at src line 270:
(total - completed) // max(speed, 1) if speed > 0 else 0, with Python floor
division on integers. -/
def etaCalc (total completed speed : Nat) : Int :=
  if 0 < speed then Int.fdiv ((total : Int) - (completed : Int)) (max (speed : Int) 1)
  else 0

/-- The progress record surfaced for one status reply, src line 271. -/
def progressAt (st : PollStatus) : Progress :=
  ⟨st.completedLength, st.totalLength, st.downloadSpeed,
    etaCalc st.totalLength st.completedLength st.downloadSpeed⟩

/-- Artifact collection at src lines 276 to 281: keep each reported path that
is truthy (present and non-empty) and exists on disk. -/
def collectDownloaded (ex : String → Bool) (files : List FileEntry) : List String :=
  files.filterMap (fun f =>
    match f.path with
    | some p => if p.isEmpty = false ∧ ex p = true then some p else none
    | none => none)

/-- The while loop of monitor_download, src lines 252 to 293. Iteration k:
check the wall clock against the timeout; query status (a failed query keeps
the session going, src lines 257 to 259); surface a progress record when at
least 5 seconds passed since last_update and the total is positive, src lines
268 to 272; then branch on the remote status: complete returns the on-disk
paths, error or removed returns the empty list, anything else sleeps 2
seconds and polls again. -/
def monitorLoop (env : MonitorEnv) (startTime timeout : Nat) :
    Nat → Nat → Nat → List Progress →
      Option (MonitorOutcome × List String × List Progress)
  | 0, _, _, _ => none
  | fuel + 1, k, lastUpdate, acc =>
    if env.clock k < startTime + timeout then
      match env.poll k with
      | none => monitorLoop env startTime timeout fuel (k + 1) lastUpdate acc
      | some st =>
        if 5 ≤ env.clock k - lastUpdate ∧ 0 < st.totalLength then
          if st.status = "complete" then
            some (MonitorOutcome.completed,
              collectDownloaded (env.diskEx k) st.files, acc ++ [progressAt st])
          else if st.status = "error" ∨ st.status = "removed" then
            some (MonitorOutcome.failed, [], acc ++ [progressAt st])
          else
            monitorLoop env startTime timeout fuel (k + 1) (env.clock k)
              (acc ++ [progressAt st])
        else
          if st.status = "complete" then
            some (MonitorOutcome.completed,
              collectDownloaded (env.diskEx k) st.files, acc)
          else if st.status = "error" ∨ st.status = "removed" then
            some (MonitorOutcome.failed, [], acc)
          else
            monitorLoop env startTime timeout fuel (k + 1) lastUpdate acc
    else
      some (MonitorOutcome.timedOut, [], acc)

/-- monitor_download, src lines 245 to 293: start models the time.time() value
captured as start_time; last_update starts equal to start_time; the source
default timeout is 600 and download_item passes 600 explicitly. -/
def monitor_download (env : MonitorEnv) (start timeout fuel : Nat) :
    Option (MonitorOutcome × List String × List Progress) :=
  monitorLoop env start timeout fuel 0 start []

/-- Control-channel commands issued by apply_file_selection. -/
inductive Cmd
  | selectFile (idx : Nat) (sel : Bool)
  | unpause
deriving DecidableEq

/-- Selection phase of apply_file_selection, src lines 219 to 231: when the
file list never populated, fail open with a bare unpause (src lines 220 to
223); otherwise one aria2.selectFile per index i in range(len(files)) with
select = (i in selected_files), then aria2.unpause. -/
def selectionCmds (files : List FileEntry) (selected_files : List Nat) : List Cmd :=
  if files.isEmpty then [Cmd.unpause]
  else
    ((List.range files.length).map
      (fun i => Cmd.selectFile i (selected_files.contains i))) ++ [Cmd.unpause]

/-- Environment of get_torrent_files: the wall clock value observed during
iteration k and the outcome of the aria2.tellStatus files query of iteration
k (none models a failed call or a reply without a result field). -/
structure FilesEnv where
  clock : Nat → Nat
  tell : Nat → Option (List FileEntry)

/-- The while loop of get_torrent_files, src lines 233 to 243: poll the file
list until it is non-empty, sleeping 1 second between polls; give up with the
empty list once the wall clock passes start + timeout. -/
def gtfLoop (env : FilesEnv) (startTime timeout : Nat) :
    Nat → Nat → Option (List FileEntry)
  | 0, _ => none
  | fuel + 1, k =>
    if env.clock k < startTime + timeout then
      match env.tell k with
      | some fs => if fs.isEmpty then gtfLoop env startTime timeout fuel (k + 1) else some fs
      | none => gtfLoop env startTime timeout fuel (k + 1)
    else some []

/-- get_torrent_files, src lines 233 to 243, started at iteration 0; the
source default timeout is 15 seconds. -/
def get_torrent_files (env : FilesEnv) (startTime timeout fuel : Nat) :
    Option (List FileEntry) :=
  gtfLoop env startTime timeout fuel 0

/-- apply_file_selection, src lines 214 to 231: fetch the file list with a 15
second bound, then issue the selection commands and the final unpause. The
result is the ordered command trace sent over the control channel; the source
ignores the reply of every one of these calls, so failed selectFile or
unpause replies do not alter the flow. -/
def apply_file_selection (env : FilesEnv) (selected_files : List Nat)
    (startTime fuel : Nat) : Option (List Cmd) :=
  (get_torrent_files env startTime 15 fuel).map
    (fun files => selectionCmds files selected_files)

/-- Concrete monitoring environment: the clock advances 2 seconds per
iteration and every poll reports a non-terminal active status. -/
def c2Env : MonitorEnv :=
  ⟨fun k => 2 * k, fun _ => some ⟨"active", 0, 0, 0, []⟩, fun _ _ => false⟩

/-- Concrete monitoring environment: one active poll, then a complete poll
reporting three file entries of which only /d/a exists on disk. -/
def c3Env : MonitorEnv :=
  ⟨fun k => 2 * k,
   fun k =>
     if k = 0 then some ⟨"active", 1, 10, 1, []⟩
     else some ⟨"complete", 10, 10, 0, [⟨some "/d/a"⟩, ⟨some "/d/b"⟩, ⟨none⟩]⟩,
   fun _ p => p == "/d/a"⟩

/-- Concrete monitoring environment: the very first poll reports an error
status. -/
def c6Env : MonitorEnv :=
  ⟨fun k => 2 * k, fun _ => some ⟨"error", 0, 0, 0, []⟩, fun _ _ => false⟩

/-- Concrete monitoring environment: the first poll is an active status with
30 of 100 bytes done at rate 0, observed 5 seconds after start so a progress
record is surfaced; afterwards the clock jumps past the timeout. -/
def c9Env : MonitorEnv :=
  ⟨fun k => if k = 0 then 5 else 2000,
   fun k => if k = 0 then some ⟨"active", 30, 100, 0, []⟩ else none,
   fun _ _ => false⟩

/-- Concrete monitoring environment: the first poll reports complete with one
file entry, but the file is absent on disk. -/
def c10Env : MonitorEnv :=
  ⟨fun _ => 0, fun _ => some ⟨"complete", 10, 10, 0, [⟨some "/d/a"⟩]⟩,
   fun _ _ => false⟩

/-- The selectFile commands of a trace, as pairs of index and selected flag. -/
def selPairs (cmds : List Cmd) : List (Nat × Bool) :=
  cmds.filterMap (fun c =>
    match c with
    | Cmd.selectFile i b => some (i, b)
    | Cmd.unpause => none)

/-- Engine selection state semantics: each aria2.selectFile command sets the
selected flag of exactly its index, in command order. -/
def runSelect (ps : List (Nat × Bool)) (st : Nat → Bool) : Nat → Bool :=
  ps.foldl (fun s p => fun j => if j = p.1 then p.2 else s j) st

/-- Concrete metadata environment: the file list of three entries is available
at the first poll. -/
def c1Env : FilesEnv :=
  ⟨fun _ => 0, fun _ => some [⟨some "f0"⟩, ⟨some "f1"⟩, ⟨some "f2"⟩]⟩

/-- Concrete metadata environment: the clock advances one second per poll and
the file list never populates, so the metadata wait times out. -/
def c5Env : FilesEnv :=
  ⟨fun k => k, fun _ => none⟩

/-- One ffmpeg invocation of extract_subtitles: by a language tag
(map 0:s:m:language:lang, src lines 308 to 312) or of the first subtitle
stream (map 0:s:0, src line 326). -/
inductive FfCmd
  | byLang (lang : String)
  | firstStream
deriving DecidableEq

/-- Observed outcome of one ffmpeg invocation: the exit code, whether the
output file exists afterwards, and its size in bytes. -/
structure FfResult where
  returncode : Int
  outExists : Bool
  outSize : Nat
deriving DecidableEq

/-- Environment of extract_subtitles: the outcome of each ffmpeg invocation;
none models a raised exception, including the 30 second timeout. -/
structure FfEnv where
  run : FfCmd → Option FfResult

/-- The per-language acceptance test of src line 316: result.returncode == 0
and os.path.exists(output_file) and os.path.getsize(output_file) > 100; a
raised invocation (none) is not a success. -/
def langSuccess (env : FfEnv) (lang : String) : Bool :=
  match env.run (FfCmd.byLang lang) with
  | some r => r.returncode == 0 && r.outExists && decide (100 < r.outSize)
  | none => false

/-- The language loop of extract_subtitles, src lines 306 to 321: one
invocation per tag in order, breaking at the first tag passing the acceptance
test; the second component is the ordered trace of invocations attempted. -/
def subLangLoop (env : FfEnv) (base : String) : List String → List String × List FfCmd
  | [] => ([], [])
  | lang :: rest =>
    if langSuccess env lang then
      ([base ++ "." ++ lang ++ ".srt"], [FfCmd.byLang lang])
    else
      ((subLangLoop env base rest).1, FfCmd.byLang lang :: (subLangLoop env base rest).2)

/-- The fallback extraction of src lines 324 to 333: one invocation of the
first subtitle stream, accepted on exit code 0 and output existence with no
minimum size check; a raised invocation yields nothing. -/
def fallbackExtract (env : FfEnv) (base : String) : List String :=
  match env.run FfCmd.firstStream with
  | some r => if r.returncode == 0 && r.outExists then [base ++ ".srt"] else []
  | none => []

/-- extract_subtitles, src lines 295 to 335: nothing when the video path does
not exist; otherwise the language loop over fre, fra, fr, french, then the
fallback when no language succeeded. Returns the extracted files and the
ordered trace of ffmpeg invocations. -/
def extract_subtitles (env : FfEnv) (base : String) (videoExists : Bool) :
    List String × List FfCmd :=
  if videoExists then
    if (subLangLoop env base ["fre", "fra", "fr", "french"]).1.isEmpty then
      (fallbackExtract env base,
        (subLangLoop env base ["fre", "fra", "fr", "french"]).2 ++ [FfCmd.firstStream])
    else subLangLoop env base ["fre", "fra", "fr", "french"]
  else ([], [])

/-- Concrete ffmpeg environment for the counterexample: the fre invocation
exits nonzero yet leaves an output file of 200 bytes; the other language
invocations leave nothing; the fallback succeeds. -/
def c7CexEnv : FfEnv :=
  ⟨fun c =>
    match c with
    | FfCmd.byLang "fre" => some ⟨1, true, 200⟩
    | FfCmd.byLang _ => some ⟨1, false, 0⟩
    | FfCmd.firstStream => some ⟨0, true, 0⟩⟩

/-- Concrete ffmpeg environment for the witness: fre fails, fra raises, fr
succeeds, french would succeed but must never be attempted. -/
def c7WEnv : FfEnv :=
  ⟨fun c =>
    match c with
    | FfCmd.byLang "fre" => some ⟨1, false, 0⟩
    | FfCmd.byLang "fra" => none
    | FfCmd.byLang _ => some ⟨0, true, 200⟩
    | FfCmd.firstStream => some ⟨0, true, 5⟩⟩

/-- Filesystem state: which paths currently exist. -/
structure FSState where
  onDisk : String → Bool

/-- Semantics of shutil.move(src, OUTPUT_DIR) landing at dst: afterwards dst
exists and src does not (a move, not a copy). -/
def fsMove (st : FSState) (src dst : String) : FSState :=
  ⟨fun q => if q = dst then true else if q = src then false else st.onDisk q⟩

/-- Paths created on disk, as by a successful extraction. -/
def addFiles (ps : List String) (st : FSState) : FSState :=
  ⟨fun q => if ps.contains q then true else st.onDisk q⟩

/-- Video classification of src line 357:
file_path.lower().endswith((".mkv", ".mp4", ".avi", ".mov")). -/
def isVideo (p : String) : Bool :=
  [".mkv", ".mp4", ".avi", ".mov"].any (fun e => p.toLower.endsWith e)

/-- Environment of process_downloaded_files: the subtitle files that
extract_subtitles returns for a video path (the source guarantees each
returned file existed when returned, modelled by adding them to the state),
and the destination path that shutil.move into OUTPUT_DIR assigns to a
source path. -/
structure ProcEnv where
  extract : String → List String
  dest : String → String

/-- The subtitle relocation loop of src lines 360 to 362: move each extracted
subtitle that still exists; the second component lists the sources moved. -/
def moveSubs (env : ProcEnv) : List String → FSState → FSState × List String
  | [], st => (st, [])
  | s :: rest, st =>
    if st.onDisk s then
      ((moveSubs env rest (fsMove st s (env.dest s))).1,
        s :: (moveSubs env rest (fsMove st s (env.dest s))).2)
    else moveSubs env rest st

/-- One iteration of the processing loop of process_downloaded_files, src
lines 349 to 365: skip a path absent from disk (src lines 350 to 351);
otherwise extract and relocate subtitles when the path is a video, then move
the main file to the output location. The second component lists the sources
moved, in order. -/
def processOne (env : ProcEnv) (st : FSState) (p : String) : FSState × List String :=
  if st.onDisk p then
    if isVideo p then
      ((fsMove (moveSubs env (env.extract p) (addFiles (env.extract p) st)).1
          p (env.dest p)),
        (moveSubs env (env.extract p) (addFiles (env.extract p) st)).2 ++ [p])
    else (fsMove st p (env.dest p), [p])
  else (st, [])

/-- process_downloaded_files, src lines 345 to 367: the processing loop over
the artifact list, threading the filesystem state and accumulating the moves
performed. -/
def process_downloaded_files (env : ProcEnv) (files : List String) (st : FSState) :
    FSState × List String :=
  files.foldl (fun acc q => ((processOne env acc.1 q).1, acc.2 ++ (processOne env acc.1 q).2))
    (st, [])

/-- Concrete processing environment: no subtitles are extracted and every
move lands at the fixed output path /out/x. -/
def c8Env : ProcEnv :=
  ⟨fun _ => [], fun _ => "/out/x"⟩

/-- Concrete filesystem: only /d/v.mkv exists. -/
def c8St : FSState :=
  ⟨fun q => q == "/d/v.mkv"⟩

/-- Tail of download_item, src lines 389 to 394: when monitoring returned a
non-empty list, process the files and report success; otherwise skip
processing and report failure. The first component is the argument handed to
process_downloaded_files, none when processing is skipped. -/
def download_item_post (downloaded_files : List String) :
    Option (List String) × Bool :=
  if downloaded_files.isEmpty then (none, false) else (some downloaded_files, true)

/-- download_item from the monitoring call on, src lines 389 to 394, composed
with the monitoring loop. -/
def download_item (env : MonitorEnv) (start timeout fuel : Nat) :
    Option (Option (List String) × Bool) :=
  (monitor_download env start timeout fuel).map (fun r => download_item_post r.2.1)

end YATD

namespace YATD

/-- Claim C4: the control-channel call attempts the request up to 3 times with
a 1 second backoff between attempts; an attempt succeeding within the budget
makes the call return that result, and 3 failures (transport failure, non-2xx
reply, 15 second per-call wait) make it return the non-fatal value None; the
call never raises, being a total function of the attempt environment. -/
theorem aria2_call_retry_contract {R : Type} (att : Nat → Option R) :
    (∀ j r, j < 3 → att j = some r → (∀ k, k < j → att k = none) →
      aria2_call att 3 = (some r, j)) ∧
    ((∀ k, k < 3 → att k = none) → aria2_call att 3 = (none, 2)) := by
  constructor
  · intro j r hj hr hk
    interval_cases j
    · simp [aria2_call, aria2_call_from, hr]
    · have h0 := hk 0 (by omega)
      simp [aria2_call, aria2_call_from, h0, hr]
    · have h0 := hk 0 (by omega)
      have h1 := hk 1 (by omega)
      simp [aria2_call, aria2_call_from, h0, h1, hr]
  · intro hk
    have h0 := hk 0 (by omega)
    have h1 := hk 1 (by omega)
    have h2 := hk 2 (by omega)
    simp [aria2_call, aria2_call_from, h0, h1, h2]

/-- Witness for claim C4 at a concrete environment: the call fails twice, then
succeeds on the third attempt, and aria2_call returns that result after two
backoffs. -/
theorem aria2_call_retry_witness :
    aria2_call (fun j => if j = 2 then some (7 : Nat) else none) 3 = (some 7, 2) :=
  (aria2_call_retry_contract (fun j => if j = 2 then some (7 : Nat) else none)).1 2 7
    (by omega) (by simp) (by intro k hk; interval_cases k <;> simp)

/-- With a clock advancing at least 2 seconds per iteration (the mandatory
sleep between polls), iteration k happens at least 2 * k seconds after
start. -/
theorem clock_lower_bound (env : MonitorEnv) (start : Nat)
    (hmono : ∀ k, env.clock k + 2 ≤ env.clock (k + 1))
    (h0 : start ≤ env.clock 0) :
    ∀ k, start + 2 * k ≤ env.clock k := by
  intro k
  induction k with
  | zero => simpa using h0
  | succ n ih =>
    have := hmono n
    omega

/-- Core of claim C2: when every status reply observed before the timeout is
non-terminal, the loop keeps polling until the wall clock passes the timeout,
then returns the timed-out outcome with no artifacts. -/
theorem monitorLoop_timeout (env : MonitorEnv) (start timeout : Nat)
    (hmono : ∀ k, env.clock k + 2 ≤ env.clock (k + 1))
    (h0 : start ≤ env.clock 0)
    (hnt : ∀ k st, env.clock k < start + timeout → env.poll k = some st →
      st.status ≠ "complete" ∧ st.status ≠ "error" ∧ st.status ≠ "removed") :
    ∀ fuel k lastUpdate acc, timeout / 2 + 1 ≤ fuel + k →
      ∃ ev, monitorLoop env start timeout (fuel + 1) k lastUpdate acc =
        some (MonitorOutcome.timedOut, [], ev) := by
  intro fuel
  induction fuel with
  | zero =>
    intro k lu acc hk
    have hcl := clock_lower_bound env start hmono h0 k
    have hguard : ¬ env.clock k < start + timeout := by omega
    exact ⟨acc, by simp [monitorLoop, hguard]⟩
  | succ n ih =>
    intro k lu acc hk
    by_cases hguard : env.clock k < start + timeout
    · cases hp : env.poll k with
      | none =>
        rcases ih (k + 1) lu acc (by omega) with ⟨ev, hev⟩
        exact ⟨ev, by simp only [monitorLoop, if_pos hguard, hp]; exact hev⟩
      | some st =>
        have hs := hnt k st hguard hp
        have hc : ¬ st.status = "complete" := hs.1
        have he : ¬ (st.status = "error" ∨ st.status = "removed") := by
          rintro (h | h)
          · exact hs.2.1 h
          · exact hs.2.2 h
        by_cases hprog : 5 ≤ env.clock k - lu ∧ 0 < st.totalLength
        · rcases ih (k + 1) (env.clock k) (acc ++ [progressAt st]) (by omega) with ⟨ev, hev⟩
          exact ⟨ev, by
            simp only [monitorLoop, if_pos hguard, hp, if_pos hprog, if_neg hc, if_neg he]
            exact hev⟩
        · rcases ih (k + 1) lu acc (by omega) with ⟨ev, hev⟩
          exact ⟨ev, by
            simp only [monitorLoop, if_pos hguard, hp, if_neg hprog, if_neg hc, if_neg he]
            exact hev⟩
    · exact ⟨acc, by simp [monitorLoop, hguard]⟩

/-- Claim C2: a session whose remote status never reaches a terminal value
(complete, error, removed) while within the configured timeout measured from
session start stops being polled once the wall clock passes the timeout and
returns an empty artifact sequence, even when status replies after that point
would be complete (the hypothesis constrains only replies observed before the
timeout). -/
theorem monitor_timeout_empty (env : MonitorEnv) (start timeout fuel : Nat)
    (hmono : ∀ k, env.clock k + 2 ≤ env.clock (k + 1))
    (h0 : start ≤ env.clock 0)
    (hfuel : timeout / 2 + 2 ≤ fuel)
    (hnt : ∀ k st, env.clock k < start + timeout → env.poll k = some st →
      st.status ≠ "complete" ∧ st.status ≠ "error" ∧ st.status ≠ "removed") :
    ∃ ev, monitor_download env start timeout fuel =
      some (MonitorOutcome.timedOut, [], ev) := by
  obtain ⟨m, rfl⟩ : ∃ m, fuel = m + 1 := ⟨fuel - 1, by omega⟩
  exact monitorLoop_timeout env start timeout hmono h0 hnt m 0 start [] (by omega)

/-- Witness for claim C2: with every poll reporting an active status, a
4 second timeout is hit after two polls and the result is timed out with no
artifacts. -/
theorem monitor_timeout_empty_witness :
    ∃ ev, monitor_download c2Env 0 4 4 = some (MonitorOutcome.timedOut, [], ev) :=
  monitor_timeout_empty c2Env 0 4 4
    (fun k => by show 2 * k + 2 ≤ 2 * (k + 1); omega)
    (by show 0 ≤ 2 * 0; omega)
    (by omega)
    (fun k st _ hp => by
      have hp' : some (⟨"active", 0, 0, 0, []⟩ : PollStatus) = some st := hp
      cases hp'
      exact ⟨by decide, by decide, by decide⟩)

/-- Membership in the collected artifact list: exactly the reported paths that
are non-empty and exist on disk. -/
theorem collectDownloaded_mem (ex : String → Bool) (fs : List FileEntry) (p : String) :
    p ∈ collectDownloaded ex fs ↔
      ∃ f, f ∈ fs ∧ f.path = some p ∧ p.isEmpty = false ∧ ex p = true := by
  unfold collectDownloaded
  rw [List.mem_filterMap]
  constructor
  · rintro ⟨f, hf, hsome⟩
    cases hfp : f.path with
    | none => rw [hfp] at hsome; exact absurd hsome (by simp)
    | some q =>
      rw [hfp] at hsome
      have hsome' : (if q.isEmpty = false ∧ ex q = true then some q else none) =
          some p := hsome
      by_cases hq : q.isEmpty = false ∧ ex q = true
      · rw [if_pos hq] at hsome'
        cases hsome'
        exact ⟨f, hf, hfp, hq⟩
      · rw [if_neg hq] at hsome'
        exact absurd hsome' (by simp)
  · rintro ⟨f, hf, hfp, hq⟩
    refine ⟨f, hf, ?_⟩
    rw [hfp]
    show (if p.isEmpty = false ∧ ex p = true then some p else none) = some p
    rw [if_pos hq]

/-- First terminal status reply decides the session: if every earlier reply
within the timeout is non-terminal and iteration k0 sees a terminal reply
while still within the timeout, the loop returns at iteration k0, with the
on-disk artifact paths for a complete status and no artifacts for error or
removed. -/
theorem monitorLoop_first_terminal (env : MonitorEnv) (start timeout k0 : Nat)
    (st0 : PollStatus)
    (hguard : ∀ k, k ≤ k0 → env.clock k < start + timeout)
    (hpoll : env.poll k0 = some st0)
    (hterm : st0.status = "complete" ∨ st0.status = "error" ∨ st0.status = "removed")
    (hbefore : ∀ k, k < k0 → ∀ s, env.poll k = some s →
      s.status ≠ "complete" ∧ s.status ≠ "error" ∧ s.status ≠ "removed") :
    ∀ fuel k lastUpdate acc, k ≤ k0 → k0 < fuel + k →
      ∃ ev, monitorLoop env start timeout fuel k lastUpdate acc =
        some (if st0.status = "complete" then MonitorOutcome.completed
                else MonitorOutcome.failed,
              if st0.status = "complete" then
                collectDownloaded (env.diskEx k0) st0.files else [],
              ev) := by
  intro fuel
  induction fuel with
  | zero => intro k lu acc h1 h2; omega
  | succ n ih =>
    intro k lu acc h1 h2
    have hg := hguard k h1
    rcases Nat.lt_or_ge k k0 with hlt | hge
    · cases hp : env.poll k with
      | none =>
        rcases ih (k + 1) lu acc (by omega) (by omega) with ⟨ev, hev⟩
        exact ⟨ev, by simp only [monitorLoop, if_pos hg, hp]; exact hev⟩
      | some s =>
        have hs := hbefore k hlt s hp
        have hc : ¬ s.status = "complete" := hs.1
        have he : ¬ (s.status = "error" ∨ s.status = "removed") := by
          rintro (h | h)
          · exact hs.2.1 h
          · exact hs.2.2 h
        by_cases hprog : 5 ≤ env.clock k - lu ∧ 0 < s.totalLength
        · rcases ih (k + 1) (env.clock k) (acc ++ [progressAt s]) (by omega) (by omega)
            with ⟨ev, hev⟩
          exact ⟨ev, by
            simp only [monitorLoop, if_pos hg, hp, if_pos hprog, if_neg hc, if_neg he]
            exact hev⟩
        · rcases ih (k + 1) lu acc (by omega) (by omega) with ⟨ev, hev⟩
          exact ⟨ev, by
            simp only [monitorLoop, if_pos hg, hp, if_neg hprog, if_neg hc, if_neg he]
            exact hev⟩
    · have hk : k = k0 := by omega
      subst hk
      by_cases hprog : 5 ≤ env.clock k - lu ∧ 0 < st0.totalLength
      · refine ⟨acc ++ [progressAt st0], ?_⟩
        by_cases hc : st0.status = "complete"
        · simp only [monitorLoop, if_pos hg, hpoll, if_pos hprog, if_pos hc]
        · have he := hterm.resolve_left hc
          simp only [monitorLoop, if_pos hg, hpoll, if_pos hprog, if_neg hc, if_pos he]
      · refine ⟨acc, ?_⟩
        by_cases hc : st0.status = "complete"
        · simp only [monitorLoop, if_pos hg, hpoll, if_neg hprog, if_pos hc]
        · have he := hterm.resolve_left hc
          simp only [monitorLoop, if_pos hg, hpoll, if_neg hprog, if_neg hc, if_pos he]

/-- Claim C3: a session whose polled remote status is complete (within the
timeout, after only non-terminal replies) returns at that very poll with the
completed outcome, so no further poll happens; the returned artifacts are
exactly the reported file paths that are present and exist on disk at that
moment, with absent reported files silently omitted. -/
theorem monitor_complete_artifacts (env : MonitorEnv) (start timeout fuel k0 : Nat)
    (st0 : PollStatus)
    (hguard : ∀ k, k ≤ k0 → env.clock k < start + timeout)
    (hpoll : env.poll k0 = some st0)
    (hst : st0.status = "complete")
    (hbefore : ∀ k, k < k0 → ∀ s, env.poll k = some s →
      s.status ≠ "complete" ∧ s.status ≠ "error" ∧ s.status ≠ "removed")
    (hfuel : k0 < fuel) :
    ∃ ev, monitor_download env start timeout fuel =
        some (MonitorOutcome.completed,
          collectDownloaded (env.diskEx k0) st0.files, ev) ∧
      ∀ p, p ∈ collectDownloaded (env.diskEx k0) st0.files ↔
        ∃ f, f ∈ st0.files ∧ f.path = some p ∧ p.isEmpty = false ∧
          env.diskEx k0 p = true := by
  rcases monitorLoop_first_terminal env start timeout k0 st0 hguard hpoll
      (Or.inl hst) hbefore fuel 0 start [] (by omega) (by omega) with ⟨ev, hev⟩
  rw [if_pos hst, if_pos hst] at hev
  exact ⟨ev, hev, fun p => collectDownloaded_mem (env.diskEx k0) st0.files p⟩

/-- Witness for claim C3: an active poll followed by a complete poll reporting
three files of which only /d/a exists; the session completes at the second
poll with exactly that path as artifact. -/
theorem monitor_complete_artifacts_witness :
    ∃ ev, monitor_download c3Env 0 600 3 =
      some (MonitorOutcome.completed, ["/d/a"], ev) := by
  rcases monitor_complete_artifacts c3Env 0 600 3 1
      ⟨"complete", 10, 10, 0, [⟨some "/d/a"⟩, ⟨some "/d/b"⟩, ⟨none⟩]⟩
      (fun k hk => by show 2 * k < 0 + 600; omega)
      rfl rfl
      (fun k hk s hp => by
        interval_cases k
        have hp' : some (⟨"active", 1, 10, 1, []⟩ : PollStatus) = some s := hp
        cases hp'
        exact ⟨by decide, by decide, by decide⟩)
      (by omega) with ⟨ev, hev, _⟩
  exact ⟨ev, by
    have hcd : collectDownloaded (c3Env.diskEx 1)
        [⟨some "/d/a"⟩, ⟨some "/d/b"⟩, ⟨none⟩] = ["/d/a"] := by decide
    rw [hcd] at hev
    exact hev⟩

/-- Claim C6: a session whose polled remote status is error or removed (within
the timeout, after only non-terminal replies) returns at that very poll with
the failed outcome and an empty artifact sequence. -/
theorem monitor_failed_empty (env : MonitorEnv) (start timeout fuel k0 : Nat)
    (st0 : PollStatus)
    (hguard : ∀ k, k ≤ k0 → env.clock k < start + timeout)
    (hpoll : env.poll k0 = some st0)
    (hst : st0.status = "error" ∨ st0.status = "removed")
    (hbefore : ∀ k, k < k0 → ∀ s, env.poll k = some s →
      s.status ≠ "complete" ∧ s.status ≠ "error" ∧ s.status ≠ "removed")
    (hfuel : k0 < fuel) :
    ∃ ev, monitor_download env start timeout fuel =
      some (MonitorOutcome.failed, [], ev) := by
  have hc : ¬ st0.status = "complete" := by
    rcases hst with h | h <;> simp [h]
  rcases monitorLoop_first_terminal env start timeout k0 st0 hguard hpoll
      (Or.inr hst) hbefore fuel 0 start [] (by omega) (by omega) with ⟨ev, hev⟩
  rw [if_neg hc, if_neg hc] at hev
  exact ⟨ev, hev⟩

/-- Witness for claim C6: the very first poll reports an error status and the
session fails within that poll tick with no artifacts. -/
theorem monitor_failed_empty_witness :
    ∃ ev, monitor_download c6Env 0 600 1 = some (MonitorOutcome.failed, [], ev) :=
  monitor_failed_empty c6Env 0 600 1 0 ⟨"error", 0, 0, 0, []⟩
    (fun k hk => by
      interval_cases k
      show 2 * 0 < 0 + 600
      omega)
    rfl (Or.inl rfl)
    (fun k hk s hp => absurd hk (Nat.not_lt_zero k))
    (by omega)

/-- Every progress record the monitoring loop appends carries the ETA of its
own reported fields, as computed at src line 270. -/
theorem monitorLoop_eta (env : MonitorEnv) (start timeout : Nat) :
    ∀ fuel k lastUpdate acc o arts ev,
      (∀ e, e ∈ acc → e.eta = etaCalc e.total e.completed e.speed) →
      monitorLoop env start timeout fuel k lastUpdate acc = some (o, arts, ev) →
      ∀ e, e ∈ ev → e.eta = etaCalc e.total e.completed e.speed := by
  intro fuel
  induction fuel with
  | zero =>
    intro k lu acc o arts ev hacc h
    exact absurd h (by simp [monitorLoop])
  | succ n ih =>
    intro k lu acc o arts ev hacc h
    by_cases hguard : env.clock k < start + timeout
    · rw [show monitorLoop env start timeout (n + 1) k lu acc =
          (if env.clock k < start + timeout then
            match env.poll k with
            | none => monitorLoop env start timeout n (k + 1) lu acc
            | some st =>
              if 5 ≤ env.clock k - lu ∧ 0 < st.totalLength then
                if st.status = "complete" then
                  some (MonitorOutcome.completed,
                    collectDownloaded (env.diskEx k) st.files, acc ++ [progressAt st])
                else if st.status = "error" ∨ st.status = "removed" then
                  some (MonitorOutcome.failed, [], acc ++ [progressAt st])
                else
                  monitorLoop env start timeout n (k + 1) (env.clock k)
                    (acc ++ [progressAt st])
              else
                if st.status = "complete" then
                  some (MonitorOutcome.completed,
                    collectDownloaded (env.diskEx k) st.files, acc)
                else if st.status = "error" ∨ st.status = "removed" then
                  some (MonitorOutcome.failed, [], acc)
                else monitorLoop env start timeout n (k + 1) lu acc
          else some (MonitorOutcome.timedOut, [], acc)) from rfl, if_pos hguard] at h
      have haccp : ∀ st, ∀ e, e ∈ acc ++ [progressAt st] →
          e.eta = etaCalc e.total e.completed e.speed := by
        intro st e he
        rcases List.mem_append.mp he with h1 | h1
        · exact hacc e h1
        · rcases List.mem_singleton.mp h1 with rfl
          rfl
      cases hp : env.poll k with
      | none =>
        rw [hp] at h
        exact ih (k + 1) lu acc o arts ev hacc h
      | some st =>
        rw [hp] at h
        have h' :
            (if 5 ≤ env.clock k - lu ∧ 0 < st.totalLength then
              if st.status = "complete" then
                some (MonitorOutcome.completed,
                  collectDownloaded (env.diskEx k) st.files, acc ++ [progressAt st])
              else if st.status = "error" ∨ st.status = "removed" then
                some (MonitorOutcome.failed, [], acc ++ [progressAt st])
              else
                monitorLoop env start timeout n (k + 1) (env.clock k)
                  (acc ++ [progressAt st])
            else
              if st.status = "complete" then
                some (MonitorOutcome.completed,
                  collectDownloaded (env.diskEx k) st.files, acc)
              else if st.status = "error" ∨ st.status = "removed" then
                some (MonitorOutcome.failed, [], acc)
              else monitorLoop env start timeout n (k + 1) lu acc) =
            some (o, arts, ev) := h
        clear h
        rename' h' => h
        by_cases hprog : 5 ≤ env.clock k - lu ∧ 0 < st.totalLength
        · rw [if_pos hprog] at h
          by_cases hc : st.status = "complete"
          · rw [if_pos hc] at h
            cases h
            exact haccp st
          · rw [if_neg hc] at h
            by_cases he2 : st.status = "error" ∨ st.status = "removed"
            · rw [if_pos he2] at h
              cases h
              exact haccp st
            · rw [if_neg he2] at h
              exact ih (k + 1) (env.clock k) (acc ++ [progressAt st]) o arts ev
                (haccp st) h
        · rw [if_neg hprog] at h
          by_cases hc : st.status = "complete"
          · rw [if_pos hc] at h
            cases h
            exact hacc
          · rw [if_neg hc] at h
            by_cases he2 : st.status = "error" ∨ st.status = "removed"
            · rw [if_pos he2] at h
              cases h
              exact hacc
            · rw [if_neg he2] at h
              exact ih (k + 1) lu acc o arts ev hacc h
    · have h' : some (MonitorOutcome.timedOut, ([] : List String), acc) =
          some (o, arts, ev) := by
        rw [← h]
        simp [monitorLoop, hguard]
      cases h'
      exact hacc

/-- Claim C9 counterexample: in this concrete run the monitor surfaces one
progress record with total 100 bytes, completed 30, instantaneous rate 0, and
reported ETA 0; the claim as stated demands
ETA = remaining / max(rate, 1) = 70 / max(0, 1) = 70, so the reported ETA
does not equal remaining divided by max(rate, 1) when the rate is 0. -/
theorem monitor_eta_cex :
    monitor_download c9Env 0 600 2 =
      some (MonitorOutcome.timedOut, [], [⟨30, 100, 0, 0⟩]) ∧
    ¬ ((0 : Int) = Int.fdiv ((100 : Int) - (30 : Int)) (max (0 : Int) 1)) := by
  constructor
  · rfl
  · decide

/-- Claim C9 (amended): for every progress record surfaced by the monitor, the
reported ETA equals remaining bytes divided (floor) by max(rate, 1) when the
instantaneous rate is positive, and equals 0 when the rate is 0. -/
theorem monitor_eta (env : MonitorEnv) (start timeout fuel : Nat)
    (o : MonitorOutcome) (arts : List String) (ev : List Progress) (e : Progress)
    (h : monitor_download env start timeout fuel = some (o, arts, ev))
    (he : e ∈ ev) :
    e.eta = if 0 < e.speed then
        Int.fdiv ((e.total : Int) - (e.completed : Int)) (max (e.speed : Int) 1)
      else 0 := by
  have h2 := monitorLoop_eta env start timeout fuel 0 start [] o arts ev
    (by intro e he; exact absurd he (List.not_mem_nil e)) h e he
  rw [h2]
  rfl

/-- Witness for claim C9 (amended) at the concrete run of c9Env: the surfaced
record has rate 0 and its reported ETA is 0 as the amended formula demands. -/
theorem monitor_eta_witness :
    (⟨30, 100, 0, 0⟩ : Progress).eta =
      if 0 < (⟨30, 100, 0, 0⟩ : Progress).speed then
        Int.fdiv (((⟨30, 100, 0, 0⟩ : Progress).total : Int) -
          ((⟨30, 100, 0, 0⟩ : Progress).completed : Int))
          (max ((⟨30, 100, 0, 0⟩ : Progress).speed : Int) 1)
      else 0 :=
  monitor_eta c9Env 0 600 2 MonitorOutcome.timedOut [] [⟨30, 100, 0, 0⟩]
    ⟨30, 100, 0, 0⟩ rfl (List.mem_singleton.mpr rfl)

/-- Running selection commands distributes over command concatenation. -/
theorem runSelect_append (l1 l2 : List (Nat × Bool)) (st : Nat → Bool) :
    runSelect (l1 ++ l2) st = runSelect l2 (runSelect l1 st) := by
  simp [runSelect, List.foldl_append]

/-- A single selectFile command updates exactly its own index. -/
theorem runSelect_single (n : Nat) (b : Bool) (st : Nat → Bool) (i : Nat) :
    runSelect [(n, b)] st i = if i = n then b else st i := rfl

/-- Running one selectFile command per index of range N sets every index below
N to its commanded flag and leaves every other index unchanged. -/
theorem runSelect_range (g : Nat → Bool) (st : Nat → Bool) :
    ∀ N i, runSelect ((List.range N).map (fun j => (j, g j))) st i =
      if i < N then g i else st i := by
  intro N
  induction N with
  | zero => intro i; simp [runSelect]
  | succ n ih =>
    intro i
    rw [List.range_succ, List.map_append, runSelect_append]
    show runSelect [(n, g n)] (runSelect ((List.range n).map (fun j => (j, g j))) st) i =
      if i < n + 1 then g i else st i
    rw [runSelect_single]
    by_cases h1 : i = n
    · subst h1
      simp
    · rw [if_neg h1, ih i]
      by_cases h2 : i < n
      · rw [if_pos h2, if_pos (by omega)]
      · rw [if_neg h2, if_neg (by omega)]

/-- The selectFile pairs of a mapped range of selectFile commands. -/
theorem selPairs_map_range (S : List Nat) :
    ∀ L : List Nat,
      selPairs (L.map (fun i => Cmd.selectFile i (S.contains i))) =
        L.map (fun i => (i, S.contains i)) := by
  intro L
  induction L with
  | nil => rfl
  | cons a t ih => simp [selPairs] at ih ⊢; exact ih

/-- The selectFile pairs issued by the selection phase: one pair per in-range
index, flag equal to membership in the selection, in index order; the
fail-open empty branch issues none. -/
theorem selPairs_selectionCmds (files : List FileEntry) (S : List Nat) :
    selPairs (selectionCmds files S) =
      (List.range files.length).map (fun i => (i, S.contains i)) := by
  unfold selectionCmds
  by_cases h : files.isEmpty
  · have h0 : files = [] := List.isEmpty_iff.mp h
    subst h0
    rfl
  · rw [if_neg h]
    unfold selPairs
    rw [List.filterMap_append]
    have h1 : List.filterMap
        (fun c => match c with
          | Cmd.selectFile i b => some (i, b)
          | Cmd.unpause => none) [Cmd.unpause] = [] := rfl
    rw [h1, List.append_nil]
    exact selPairs_map_range S (List.range files.length)

/-- Claim C1: given the file list of length N obtained for the job,
apply_file_selection issues exactly one selectFile command per index i in
range N, flag equal to membership of i in the selection set S, and nothing
for out-of-range indices; hence after running the commands exactly the
indices in S below N are selected, every other index below N is unselected,
indices at or above N keep their previous state, and reapplying the same
command trace yields the same selection state. -/
theorem apply_selection_marks (env : FilesEnv) (S : List Nat) (start fuel : Nat)
    (files : List FileEntry) (cmds : List Cmd) (st : Nat → Bool)
    (hg : get_torrent_files env start 15 fuel = some files)
    (ha : apply_file_selection env S start fuel = some cmds) :
    selPairs cmds = (List.range files.length).map (fun i => (i, S.contains i)) ∧
      (∀ i, i < files.length → runSelect (selPairs cmds) st i = S.contains i) ∧
      (∀ i, files.length ≤ i → runSelect (selPairs cmds) st i = st i) ∧
      runSelect (selPairs cmds) (runSelect (selPairs cmds) st) =
        runSelect (selPairs cmds) st := by
  have hc : cmds = selectionCmds files S := by
    unfold apply_file_selection at ha
    rw [hg] at ha
    have ha' : some (selectionCmds files S) = some cmds := ha
    cases ha'
    rfl
  subst hc
  rw [selPairs_selectionCmds files S]
  refine ⟨rfl, ?_, ?_, ?_⟩
  · intro i hi
    rw [runSelect_range (fun i => S.contains i) st files.length i, if_pos hi]
  · intro i hi
    rw [runSelect_range (fun i => S.contains i) st files.length i, if_neg (by omega)]
  · funext i
    rw [runSelect_range (fun i => S.contains i)
      (runSelect ((List.range files.length).map (fun i => (i, S.contains i))) st)
      files.length i]
    by_cases hi : i < files.length
    · rw [if_pos hi, runSelect_range (fun i => S.contains i) st files.length i,
        if_pos hi]
    · rw [if_neg hi]

/-- Witness for claim C1: three files with selection set containing 0 and 2
produce exactly the commands selecting indices 0 and 2 and deselecting 1. -/
theorem apply_selection_marks_witness :
    selPairs (selectionCmds [⟨some "f0"⟩, ⟨some "f1"⟩, ⟨some "f2"⟩] [0, 2]) =
      (List.range 3).map (fun i => (i, List.contains [0, 2] i)) :=
  (apply_selection_marks c1Env [0, 2] 0 1 [⟨some "f0"⟩, ⟨some "f1"⟩, ⟨some "f2"⟩]
    (selectionCmds [⟨some "f0"⟩, ⟨some "f1"⟩, ⟨some "f2"⟩] [0, 2]) (fun _ => false)
    rfl rfl).1

/-- With a clock advancing at least 1 second per metadata poll (the sleep
between polls), poll k happens at least k seconds after start. -/
theorem gtf_clock_lower_bound (env : FilesEnv) (start : Nat)
    (hmono : ∀ k, env.clock k + 1 ≤ env.clock (k + 1))
    (h0 : start ≤ env.clock 0) :
    ∀ k, start + k ≤ env.clock k := by
  intro k
  induction k with
  | zero => simpa using h0
  | succ n ih =>
    have := hmono n
    omega

/-- The metadata wait always returns: either a non-empty file list observed
within the timeout, or the empty list once the clock passes the timeout. -/
theorem gtfLoop_total (env : FilesEnv) (start timeout : Nat)
    (hmono : ∀ k, env.clock k + 1 ≤ env.clock (k + 1))
    (h0 : start ≤ env.clock 0) :
    ∀ fuel k, timeout ≤ fuel + k →
      ∃ fs, gtfLoop env start timeout (fuel + 1) k = some fs := by
  intro fuel
  induction fuel with
  | zero =>
    intro k hk
    have hcl := gtf_clock_lower_bound env start hmono h0 k
    have hguard : ¬ env.clock k < start + timeout := by omega
    exact ⟨[], by simp [gtfLoop, hguard]⟩
  | succ n ih =>
    intro k hk
    by_cases hguard : env.clock k < start + timeout
    · cases ht : env.tell k with
      | none =>
        rcases ih (k + 1) (by omega) with ⟨fs, hfs⟩
        exact ⟨fs, by simp only [gtfLoop, if_pos hguard, ht]; exact hfs⟩
      | some fs0 =>
        by_cases hemp : fs0.isEmpty
        · rcases ih (k + 1) (by omega) with ⟨fs, hfs⟩
          exact ⟨fs, by simp only [gtfLoop, if_pos hguard, ht, if_pos hemp]; exact hfs⟩
        · exact ⟨fs0, by simp only [gtfLoop, if_pos hguard, ht, if_neg hemp]⟩
    · exact ⟨[], by simp [gtfLoop, hguard]⟩

/-- The selection phase ends with the unpause command on both of its paths. -/
theorem selectionCmds_getLast (files : List FileEntry) (S : List Nat) :
    (selectionCmds files S).getLast? = some Cmd.unpause := by
  unfold selectionCmds
  by_cases h : files.isEmpty
  · rw [if_pos h]
    rfl
  · rw [if_neg h]
    exact List.getLast?_concat _

/-- Claim C5: with the wall clock advancing at least one second per metadata
poll, apply_file_selection terminates (it is a total function once given fuel
covering the 15 second metadata wait at the 1 second interval) and on every
execution path, whether the file list populates, stays empty for the whole
wait, or individual selectFile replies fail (the source ignores those
replies), the trace ends with the unpause command: the job is always resumed,
fail open. -/
theorem apply_selection_fail_open (env : FilesEnv) (S : List Nat) (start fuel : Nat)
    (hmono : ∀ k, env.clock k + 1 ≤ env.clock (k + 1))
    (h0 : start ≤ env.clock 0)
    (hfuel : 16 ≤ fuel) :
    ∃ cmds, apply_file_selection env S start fuel = some cmds ∧
      cmds.getLast? = some Cmd.unpause := by
  obtain ⟨m, rfl⟩ : ∃ m, fuel = m + 1 := ⟨fuel - 1, by omega⟩
  rcases gtfLoop_total env start 15 hmono h0 m 0 (by omega) with ⟨fs, hfs⟩
  refine ⟨selectionCmds fs S, ?_, selectionCmds_getLast fs S⟩
  unfold apply_file_selection get_torrent_files
  rw [hfs]
  rfl

/-- Witness for claim C5: the file list never populates within the 15 second
wait, and the command trace still ends with unpause. -/
theorem apply_selection_fail_open_witness :
    ∃ cmds, apply_file_selection c5Env [0, 2] 0 16 = some cmds ∧
      cmds.getLast? = some Cmd.unpause :=
  apply_selection_fail_open c5Env [0, 2] 0 16
    (fun k => by show k + 1 ≤ k + 1; omega)
    (by show 0 ≤ 0; omega)
    (by omega)

/-- When no language passes the acceptance test, the loop attempts every tag
once, in order, and extracts nothing. -/
theorem subLangLoop_all_fail (env : FfEnv) (base : String) :
    ∀ L, (∀ l, l ∈ L → langSuccess env l = false) →
      subLangLoop env base L = ([], L.map FfCmd.byLang) := by
  intro L
  induction L with
  | nil => intro _; rfl
  | cons a t ih =>
    intro h
    have ha : langSuccess env a = false := h a (List.mem_cons_self a t)
    have ht := ih (fun l hl => h l (List.mem_cons_of_mem a hl))
    unfold subLangLoop
    rw [ha]
    show ((subLangLoop env base t).1, FfCmd.byLang a :: (subLangLoop env base t).2) =
      ([], (a :: t).map FfCmd.byLang)
    rw [ht]
    rfl

/-- The loop stops at the first tag passing the acceptance test: every earlier
tag is attempted once, the winning tag is attempted, later tags are not. -/
theorem subLangLoop_first_success (env : FfEnv) (base : String) :
    ∀ L1 lang L2, (∀ l, l ∈ L1 → langSuccess env l = false) →
      langSuccess env lang = true →
      subLangLoop env base (L1 ++ lang :: L2) =
        ([base ++ "." ++ lang ++ ".srt"], (L1 ++ [lang]).map FfCmd.byLang) := by
  intro L1
  induction L1 with
  | nil =>
    intro lang L2 _ hs
    unfold subLangLoop
    rw [List.nil_append]
    show (if langSuccess env lang then
        ([base ++ "." ++ lang ++ ".srt"], [FfCmd.byLang lang])
      else ((subLangLoop env base L2).1,
        FfCmd.byLang lang :: (subLangLoop env base L2).2)) =
      ([base ++ "." ++ lang ++ ".srt"], ([] ++ [lang]).map FfCmd.byLang)
    rw [hs]
    rfl
  | cons a t ih =>
    intro lang L2 h hs
    have ha : langSuccess env a = false := h a (List.mem_cons_self a t)
    have ht := ih lang L2 (fun l hl => h l (List.mem_cons_of_mem a hl)) hs
    show (if langSuccess env a then
        ([base ++ "." ++ a ++ ".srt"], [FfCmd.byLang a])
      else ((subLangLoop env base (t ++ lang :: L2)).1,
        FfCmd.byLang a :: (subLangLoop env base (t ++ lang :: L2)).2)) =
      ([base ++ "." ++ lang ++ ".srt"], ((a :: t) ++ [lang]).map FfCmd.byLang)
    rw [ha]
    show ((subLangLoop env base (t ++ lang :: L2)).1,
        FfCmd.byLang a :: (subLangLoop env base (t ++ lang :: L2)).2) =
      ([base ++ "." ++ lang ++ ".srt"], ((a :: t) ++ [lang]).map FfCmd.byLang)
    rw [ht]
    rfl

/-- Claim C7 counterexample: the fre invocation leaves an output file that
exists with 200 > 100 bytes but a nonzero exit code; the code does not stop
at fre as the claim (existence and size alone decide) would demand: it goes
on through fra, fr, french and the untagged fallback, and the returned file
does not carry the fre tag. -/
theorem extract_subtitles_cex :
    c7CexEnv.run (FfCmd.byLang "fre") = some ⟨1, true, 200⟩ ∧
    extract_subtitles c7CexEnv "v" true =
      (["v.srt"], [FfCmd.byLang "fre", FfCmd.byLang "fra", FfCmd.byLang "fr",
        FfCmd.byLang "french", FfCmd.firstStream]) ∧
    extract_subtitles c7CexEnv "v" true ≠ (["v.fre.srt"], [FfCmd.byLang "fre"]) := by
  refine ⟨rfl, ?_, ?_⟩
  · decide
  · decide

/-- Claim C7 (amended): subtitle extraction attempts the language tags in the
exact order fre, fra, fr, french, one ffmpeg invocation per tag, stopping at
the first tag whose invocation exits with code 0 and whose output file exists
and exceeds 100 bytes; when none of the four tags succeeds under that test,
it falls back to a single extraction of the first subtitle stream regardless
of language, accepted on exit code 0 and existence with no minimum size
check. In particular when only fr succeeds the result carries the fr tag and
french is never attempted. -/
theorem extract_subtitles_order (env : FfEnv) (base : String) :
    (∀ L1 lang L2, ["fre", "fra", "fr", "french"] = L1 ++ lang :: L2 →
      (∀ l, l ∈ L1 → langSuccess env l = false) → langSuccess env lang = true →
      extract_subtitles env base true =
        ([base ++ "." ++ lang ++ ".srt"], (L1 ++ [lang]).map FfCmd.byLang)) ∧
    ((∀ l, l ∈ ["fre", "fra", "fr", "french"] → langSuccess env l = false) →
      extract_subtitles env base true =
        (fallbackExtract env base,
          (["fre", "fra", "fr", "french"].map FfCmd.byLang) ++ [FfCmd.firstStream])) := by
  constructor
  · intro L1 lang L2 hL h1 hs
    unfold extract_subtitles
    rw [if_pos rfl, hL, subLangLoop_first_success env base L1 lang L2 h1 hs]
    rw [if_neg (by simp)]
  · intro h
    unfold extract_subtitles
    rw [if_pos rfl, subLangLoop_all_fail env base ["fre", "fra", "fr", "french"] h]
    rfl

/-- Witness for claim C7 (amended): fre fails, fra raises, fr succeeds; the
extraction returns the fr-tagged file and the invocation trace stops at fr,
with french never attempted even though it would succeed. -/
theorem extract_subtitles_order_witness :
    extract_subtitles c7WEnv "v" true =
      (["v.fr.srt"], [FfCmd.byLang "fre", FfCmd.byLang "fra", FfCmd.byLang "fr"]) := by
  have h := (extract_subtitles_order c7WEnv "v").1 ["fre", "fra"] "fr" ["french"] rfl
    (by intro l hl; fin_cases hl <;> decide) (by decide)
  rw [h]
  decide

/-- After a move the source path no longer exists, provided the destination
is a different path. -/
theorem fsMove_src (st : FSState) (src dst : String) (h : src ≠ dst) :
    (fsMove st src dst).onDisk src = false := by
  show (if src = dst then true else if src = src then false else st.onDisk src) = false
  rw [if_neg h, if_pos rfl]

/-- Processing a path absent from disk is a no-op: no move, no state change,
and no exception (the step is a total function). -/
theorem processOne_absent (env : ProcEnv) (st : FSState) (p : String)
    (h : st.onDisk p = false) : processOne env st p = (st, []) := by
  unfold processOne
  rw [h]
  rfl

/-- Claim C8: relocation of an artifact is a move and is idempotent-safe.
After the processing step moves an artifact present on disk, the source path
no longer exists; running the step again on that artifact is a no-op: the
state is unchanged, no move is attempted, and nothing is raised (the step is
a total function). The destination hypothesis says the output location of a
move is never the artifact path itself. -/
theorem relocation_idempotent (env : ProcEnv) (st : FSState) (p : String)
    (hp : st.onDisk p = true)
    (hdest : ∀ q, env.dest q ≠ p) :
    (processOne env st p).1.onDisk p = false ∧
      processOne env (processOne env st p).1 p = ((processOne env st p).1, []) := by
  have hnd : p ≠ env.dest p := fun h => hdest p h.symm
  have h1 : (processOne env st p).1.onDisk p = false := by
    unfold processOne
    rw [hp]
    by_cases hv : isVideo p = true
    · rw [hv]
      exact fsMove_src _ p (env.dest p) hnd
    · rw [Bool.not_eq_true] at hv
      rw [hv]
      exact fsMove_src st p (env.dest p) hnd
  exact ⟨h1, processOne_absent env (processOne env st p).1 p h1⟩

/-- Witness for claim C8: a single video artifact on disk; after the first
processing pass its source path is gone and a second pass on it is a no-op
with no move. -/
theorem relocation_idempotent_witness :
    (processOne c8Env c8St "/d/v.mkv").1.onDisk "/d/v.mkv" = false ∧
      processOne c8Env (processOne c8Env c8St "/d/v.mkv").1 "/d/v.mkv" =
        ((processOne c8Env c8St "/d/v.mkv").1, []) :=
  relocation_idempotent c8Env c8St "/d/v.mkv" (by decide)
    (fun q => by show "/out/x" ≠ "/d/v.mkv"; decide)

/-- Reported files none of which exist on disk collect to no artifacts. -/
theorem collectDownloaded_none (ex : String → Bool) (fs : List FileEntry)
    (h : ∀ f q, f ∈ fs → f.path = some q → ex q = false) :
    collectDownloaded ex fs = [] := by
  rw [List.eq_nil_iff_forall_not_mem]
  intro p hp
  rcases (collectDownloaded_mem ex fs p).mp hp with ⟨f, hf, hfp, _, hex⟩
  have hq := h f p hf hfp
  rw [hq] at hex
  exact Bool.false_ne_true hex

/-- Claim C10: whenever the monitor returns an empty artifact sequence,
download_item skips post-processing and reports failure; and a session whose
status reached complete but none of whose reported files exist on disk
collects an empty artifact sequence, so at the public interface it is
indistinguishable from a failed or timed-out session, which also returns an
empty sequence. -/
theorem download_item_empty_failure (env : MonitorEnv) (start timeout fuel : Nat)
    (o : MonitorOutcome) (ev : List Progress)
    (h : monitor_download env start timeout fuel = some (o, [], ev)) :
    download_item env start timeout fuel = some (none, false) ∧
      ∀ (ex : String → Bool) (fs : List FileEntry),
        (∀ f q, f ∈ fs → f.path = some q → ex q = false) →
        collectDownloaded ex fs = [] := by
  constructor
  · unfold download_item
    rw [h]
    rfl
  · intro ex fs hfs
    exact collectDownloaded_none ex fs hfs

/-- Witness for claim C10: the first poll reports complete with one file entry
absent on disk; the monitor collects no artifacts and download_item reports
failure without processing, exactly as for a failed session. -/
theorem download_item_empty_witness :
    download_item c10Env 0 600 1 = some (none, false) :=
  (download_item_empty_failure c10Env 0 600 1 MonitorOutcome.completed [] rfl).1

end YATD
